import Mathlib

/-!
Shallow embedding of the zeppelin metadata coordinator
(`src/src/meta/zp_meta_server.cc`).

The consensus key-value store (floyd) is modelled at the logical level: each
reserved key (`ND`, `MT`, `PN`, `PART:<id>`) holds the decoded record, with
`none` standing for an absent key.  Serialization is assumed to round-trip
(spec §4.B), so records are stored as structured values.  Consensus writes can
fail; every operation takes one boolean oracle per write site it contains and
additionally returns the trace of write attempts it performed, so that
properties about "successful persisted writes" can be stated directly.
-/

namespace Zeppelin

/-- Embeds `ZPMeta::Node`: a network endpoint `(ip, port)`. -/
structure Node where
  ip : String
  port : Int
deriving DecidableEq, Repr, Inhabited

/-- Embeds `ZPMeta::NodeStatus`: endpoint plus status (`0` = kNodeUp, `1` = kNodeDown). -/
structure NodeStatus where
  node : Node
  status : Nat
deriving DecidableEq, Repr, Inhabited

/-- Embeds `ZPMeta::Nodes`: the sequence stored under key `ND`. -/
structure Nodes where
  nodes : List NodeStatus
deriving DecidableEq, Repr, Inhabited

/-- Embeds `ZPMeta::Partitions`: one partition's id, master and slaves. -/
structure Partition where
  id : Nat
  master : Node
  slaves : List Node
deriving DecidableEq, Repr, Inhabited

/-- Embeds `ZPMeta::MetaCmdResponse_Pull` (a.k.a. MSInfo): the table stored under `MT`. -/
structure MsInfo where
  version : Int
  info : List Partition
deriving DecidableEq, Repr, Inhabited

/-- Embeds `ZPMeta::Replicaset`: stored under `PART:<id>`. -/
structure Replicaset where
  id : Nat
  nodes : List Node
deriving DecidableEq, Repr, Inhabited

/-- Embeds `slash::Status` as used by the server: `OK`, `NotFound(msg)`, `Corruption(msg)`. -/
inductive St where
  | ok
  | notFound (msg : String)
  | corruption (msg : String)
deriving DecidableEq, Repr

/-- The reserved floyd keys written by the server. -/
inductive FKey where
  | nd
  | mt
  | pn
  | part (id : Nat)
deriving DecidableEq, Repr

/-- One consensus write attempt: which key, and whether floyd accepted it. -/
structure WEv where
  key : FKey
  succ : Bool
deriving DecidableEq, Repr

/-- The replicated store, one field per reserved key (`none` = key absent). -/
structure FloydStore where
  mt : Option MsInfo
  nd : Option Nodes
  pn : Option Int
  parts : List (Nat × Replicaset)
deriving DecidableEq, Repr, Inhabited

/-- The server state the claims are about: the replicated store, the leader's
cached `version_`, and the in-memory liveness map `node_alive_`
(endpoint → last-seen time). -/
structure MetaServer where
  store : FloydStore
  version : Int
  nodeAlive : List ((String × Int) × Int)
deriving DecidableEq, Repr, Inhabited

/-- Result of a floyd `DirtyRead`. -/
inductive FloydRead (α : Type) where
  | ok (v : α)
  | notFound
  | err
deriving DecidableEq, Repr

/-- Embeds `ZPMetaServer::GetAllAliveNode`: the UP subset of the nodes table. -/
def getAllAliveNode (nodes : Nodes) : List NodeStatus :=
  nodes.nodes.filter (fun ns => ns.status == 0)

/-- Embeds `ZPMetaServer::FindNode`: membership of an endpoint in the nodes table. -/
def findNode (nodes : Nodes) (ip : String) (port : Int) : Bool :=
  nodes.nodes.any (fun ns => ns.node.ip == ip && ns.node.port == port)

/-- Embeds `IsAlive` (static helper in `zp_meta_server.cc`). -/
def isAlive (aliveNodes : List NodeStatus) (ip : String) (port : Int) : Bool :=
  aliveNodes.any (fun ns => ns.node.ip == ip && ns.node.port == port)

/-- Lexicographic order on character lists: the order `std::map` applies to
its `std::string` keys (byte order; the IPs involved are ASCII). -/
def charListLt : List Char → List Char → Bool
  | [], [] => false
  | [], _ :: _ => true
  | _ :: _, [] => false
  | c :: cs, d :: ds => if c < d then true else if d < c then false else charListLt cs ds

/-- The `std::string` comparison used by the bucket map of `Reorganize`. -/
def strLt (a b : String) : Bool :=
  charListLt a.data b.data

/-- Insertion into the `std::map<std::string, std::vector<NodeStatus>>` bucket
map of `Reorganize`: buckets are kept sorted by IP (std::map iteration order),
and a node is appended at the back of its IP's bucket. -/
def insertBucket (ns : NodeStatus) : List (String × List NodeStatus) → List (String × List NodeStatus)
  | [] => [(ns.node.ip, [ns])]
  | (k, v) :: rest =>
    if ns.node.ip = k then (k, v ++ [ns]) :: rest
    else if strLt ns.node.ip k then (ns.node.ip, [ns]) :: (k, v) :: rest
    else (k, v) :: insertBucket ns rest

/-- The bucket map built by the first loop of `Reorganize`. -/
def bucketsOf (t : List NodeStatus) : List (String × List NodeStatus) :=
  t.foldl (fun m ns => insertBucket ns m) []

/-- One iteration of the inner `for` loop of `Reorganize`: walk all buckets in
map order; an empty bucket increments `empty_count`, a non-empty one has its
back element popped and appended to the output. -/
def onePass : List (String × List NodeStatus) → Nat → List NodeStatus →
    List (String × List NodeStatus) × Nat × List NodeStatus
  | [], ec, acc => ([], ec, acc)
  | (k, v) :: rest, ec, acc =>
    if v.isEmpty then
      let r := onePass rest (ec + 1) acc
      ((k, v) :: r.1, r.2)
    else
      let r := onePass rest ec (acc ++ [v.getLastD default])
      ((k, v.dropLast) :: r.1, r.2)

/-- The `while (true)` loop of `Reorganize`, totalized by fuel.  Note that
`empty_count` is carried over between rounds exactly as in the source (it is
never reset inside the loop). -/
def reorganizeLoop : Nat → List (String × List NodeStatus) → Nat → Nat → List NodeStatus → List NodeStatus
  | 0, _, _, _, acc => acc
  | fuel + 1, m, ec, msize, acc =>
    if ec = msize then acc
    else
      let r := onePass m ec acc
      reorganizeLoop fuel r.1 r.2.1 msize r.2.2

/-- Embeds `ZPMetaServer::Reorganize`. -/
def reorganize (t : List NodeStatus) : List NodeStatus :=
  let m := bucketsOf t
  reorganizeLoop ((t.length + 1) * (t.length + 1)) m 0 m.length []

/-- The decision of `ZPMetaServer::PartitionNums` as a function of the
`DirtyRead(PN)` outcome: the parsed value on a successful read, and `0` on any
failed or not-found read. -/
def partitionNumsOfRead : FloydRead Int → Int
  | .ok v => v
  | .notFound => 0
  | .err => 0

/-- Reading key `PN` from the store (`none` = absent key = NotFound). -/
def readPN (store : FloydStore) : FloydRead Int :=
  match store.pn with
  | some v => .ok v
  | none => .notFound

/-- Embeds `ZPMetaServer::PartitionNums`. -/
def partitionNums (srv : MetaServer) : Int :=
  partitionNumsOfRead (readPN srv.store)

/-- Embeds `ZPMetaServer::InitVersion` on a successful read: an empty `MT` value
yields `-1`, otherwise the parsed table's version. -/
def initVersion (store : FloydStore) : Int :=
  match store.mt with
  | none => -1
  | some ms => ms.version

/-- The body of `OnNode`'s per-partition loop: if the partition is orphaned
(`master == ("",0)`) and some slave matches the endpoint, promote the first
such slave, move the last slave into its slot and shrink the list.  Returns
(changed?, new partition). -/
def onNodePartition (ip : String) (port : Int) (p : Partition) : Bool × Partition :=
  if p.master.ip = "" ∧ p.master.port = 0 then
    match p.slaves.findIdx? (fun s => s.ip == ip && s.port == port) with
    | some j =>
      (true, { p with master := p.slaves.getD j default,
                      slaves := (p.slaves.set j (p.slaves.getLastD default)).dropLast })
    | none => (false, p)
  else (false, p)

/-- Embeds `ZPMetaServer::OnNode`.  `wMT` is the success oracle for the `SetMSInfo`
write. -/
def onNode (srv : MetaServer) (ip : String) (port : Int) (wMT : Bool) :
    St × MetaServer × List WEv :=
  match srv.store.mt with
  | none => (.corruption "Read full_meta failed!", srv, [])
  | some ms =>
    let rs := ms.info.map (onNodePartition ip port)
    let shouldRewrite := rs.any (·.1)
    if shouldRewrite then
      let ms2 : MsInfo := { version := srv.version + 1, info := rs.map (·.2) }
      if wMT then
        (.ok, { srv with store := { srv.store with mt := some ms2 }, version := srv.version + 1 },
         [⟨.mt, true⟩])
      else (.corruption "floyd set error!", srv, [⟨.mt, false⟩])
    else (.ok, srv, [])

/-- The scan-and-mutate loop of `SetNodeStatus`: find the first entry matching
the endpoint and set its status.  Returns `none` when the endpoint is absent,
otherwise the new list and whether the status actually changed. -/
def setStatusList : List NodeStatus → String → Int → Nat → Option (List NodeStatus × Bool)
  | [], _, _, _ => none
  | ns :: rest, ip, port, status =>
    if ns.node.ip = ip ∧ ns.node.port = port then
      if ns.status = status then some (ns :: rest, false)
      else some ({ ns with status := status } :: rest, true)
    else
      match setStatusList rest ip port status with
      | none => none
      | some (l, c) => some (ns :: l, c)

/-- Embeds `ZPMetaServer::SetNodeStatus`: flip the endpoint's status in the given
nodes value, persist `ND`, and on a DOWN→UP flip invoke `OnNode`. -/
def setNodeStatus (srv : MetaServer) (nodes : Nodes) (ip : String) (port : Int)
    (status : Nat) (wND wMT : Bool) : St × MetaServer × List WEv :=
  match setStatusList nodes.nodes ip port status with
  | none => (.notFound "not found this node", srv, [])
  | some (l, changed) =>
    if changed then
      let nodes2 : Nodes := ⟨l⟩
      if wND then
        let srv1 := { srv with store := { srv.store with nd := some nodes2 } }
        if status = 0 then
          let r := onNode srv1 ip port wMT
          if r.1 = .ok then (.ok, r.2.1, ⟨.nd, true⟩ :: r.2.2)
          else (.corruption "OnNode error!", r.2.1, ⟨.nd, true⟩ :: r.2.2)
        else (.ok, srv1, [⟨.nd, true⟩])
      else (.corruption "floyd set error!", srv, [⟨.nd, false⟩])
    else (.ok, srv, [])

/-- The append-new-node branch of `AddNode`. -/
def addNodeNew (srv : MetaServer) (nodes : Nodes) (ip : String) (port : Int) (wND : Bool) :
    St × MetaServer × List WEv :=
  let nodes2 : Nodes := ⟨nodes.nodes ++ [⟨⟨ip, port⟩, 0⟩]⟩
  if wND then
    (.ok, { srv with store := { srv.store with nd := some nodes2 } }, [⟨.nd, true⟩])
  else (.corruption "floyd set error!", srv, [⟨.nd, false⟩])

/-- Embeds `ZPMetaServer::AddNode`. -/
def addNode (srv : MetaServer) (ip : String) (port : Int) (wND wMT : Bool) :
    St × MetaServer × List WEv :=
  match srv.store.nd with
  | some nodes =>
    if findNode nodes ip port then setNodeStatus srv nodes ip port 0 wND wMT
    else addNodeNew srv nodes ip port wND
  | none => addNodeNew srv ⟨[]⟩ ip port wND

/-- The `std::map` style update-or-insert on the liveness map
(`node_alive_[ip_port] = now`). -/
def aliveSet (m : List ((String × Int) × Int)) (k : String × Int) (now : Int) :
    List ((String × Int) × Int) :=
  if m.any (fun kv => kv.1 = k) then m.map (fun kv => if kv.1 = k then (k, now) else kv)
  else m ++ [(k, now)]

/-- Embeds `ZPMetaServer::AddNodeAlive`: record the heartbeat in `node_alive_` first,
then run `AddNode`.  (The endpoint arrives as the pair the callers build the
`"ip:port"` key from.) -/
def addNodeAlive (srv : MetaServer) (ip : String) (port : Int) (now : Int) (wND wMT : Bool) :
    St × MetaServer × List WEv :=
  let srv0 := { srv with nodeAlive := aliveSet srv.nodeAlive (ip, port) now }
  addNode srv0 ip port wND wMT

/-- Embeds `ZPMetaServer::UpdateNodeAlive`: refresh only an existing entry. -/
def updateNodeAlive (srv : MetaServer) (ip : String) (port : Int) (now : Int) :
    Bool × MetaServer :=
  if srv.nodeAlive.any (fun kv => kv.1 = (ip, port)) then
    (true, { srv with nodeAlive := aliveSet srv.nodeAlive (ip, port) now })
  else (false, srv)

/-- Embeds `ZPMetaServer::CheckNodeAlive`: drop every entry older than the timeout and
report the endpoints scheduled for `kOpRemove`.  The timeout constant
`kNodeMetaTimeoutM` lives in a header outside `src/`, so it is a parameter. -/
def checkNodeAlive (srv : MetaServer) (now timeout : Int) :
    MetaServer × List (String × Int) :=
  let needRemove := (srv.nodeAlive.filter (fun kv => decide (now - kv.2 > timeout))).map (·.1)
  ({ srv with nodeAlive := srv.nodeAlive.filter (fun kv => decide (now - kv.2 ≤ timeout)) },
   needRemove)

/-- Embeds `ZPMetaServer::RestoreNodeAlive`: replace the liveness map wholesale. -/
def restoreNodeAlive (srv : MetaServer) (aliveNodes : List NodeStatus) (now : Int) : MetaServer :=
  { srv with nodeAlive := aliveNodes.map (fun ns => ((ns.node.ip, ns.node.port), now)) }

/-- The body of `OffNode`'s per-partition loop: if this partition's master is
the downed endpoint, promote the first slave that is in the alive set (the old
master takes its slot); if none is alive, append the old master to the slaves
and blank the master.  Returns (changed?, new partition). -/
def offNodePartition (aliveNodes : List NodeStatus) (ip : String) (port : Int) (p : Partition) :
    Bool × Partition :=
  if p.master.ip = ip ∧ p.master.port = port then
    match p.slaves.findIdx? (fun s => isAlive aliveNodes s.ip s.port) with
    | some j => (true, { p with master := p.slaves.getD j default, slaves := p.slaves.set j p.master })
    | none => (true, { p with master := ⟨"", 0⟩, slaves := p.slaves ++ [p.master] })
  else (false, p)

/-- Embeds `ZPMetaServer::OffNode`.  The alive set is computed from the nodes table
before the endpoint is flipped to DOWN, exactly as in the source. -/
def offNode (srv : MetaServer) (ip : String) (port : Int) (wND wMT : Bool) :
    St × MetaServer × List WEv :=
  match srv.store.nd with
  | none => (.notFound "not found from floyd", srv, [])
  | some nodes =>
    let aliveNodes := getAllAliveNode nodes
    let r1 := setNodeStatus srv nodes ip port 1 wND wMT
    if r1.1 ≠ .ok then r1
    else
      let srv1 := r1.2.1
      match srv1.store.mt with
      | none => (.corruption "Read full_meta failed!", srv1, r1.2.2)
      | some ms =>
        let rs := ms.info.map (offNodePartition aliveNodes ip port)
        let shouldRewrite := rs.any (·.1)
        if shouldRewrite then
          let ms2 : MsInfo := { version := srv1.version + 1, info := rs.map (·.2) }
          if wMT then
            (.ok, { srv1 with store := { srv1.store with mt := some ms2 },
                              version := srv1.version + 1 },
             r1.2.2 ++ [⟨.mt, true⟩])
          else (.corruption "floyd set error!", srv1, r1.2.2 ++ [⟨.mt, false⟩])
        else (.ok, srv1, r1.2.2)

/-- Update-or-insert for the `PART:<id>` keys. -/
def partsSet (ps : List (Nat × Replicaset)) (id2 : Nat) (r : Replicaset) :
    List (Nat × Replicaset) :=
  if ps.any (fun kv => kv.1 = id2) then ps.map (fun kv => if kv.1 = id2 then (id2, r) else kv)
  else ps ++ [(id2, r)]

/-- The `for (int i = 0; i < num; i++)` loop of `Distribute`: build replicaset
and partition `i` from the reorganized alive list and persist the replicaset;
a failed `SetReplicaset` write returns early.  Arguments are the loop index
and the remaining iteration count; the result carries the replicasets written,
the partitions accumulated in `ms_info`, the write trace, and whether the loop
ran to completion. -/
def distLoop (aliveNodes : List NodeStatus) (anum : Nat) (wRep : Nat → Bool) :
    Nat → Nat → List (Nat × Replicaset) × List Partition × List WEv × Bool
  | _, 0 => ([], [], [], true)
  | i, rem + 1 =>
    let m := (aliveNodes.getD (i % anum) default).node
    let s1 := (aliveNodes.getD ((i + 1) % anum) default).node
    let s2 := (aliveNodes.getD ((i + 2) % anum) default).node
    let rep : Replicaset := ⟨i, [m, s1, s2]⟩
    let p : Partition := ⟨i, m, [s1, s2]⟩
    if wRep i then
      let r := distLoop aliveNodes anum wRep (i + 1) rem
      ((i, rep) :: r.1, p :: r.2.1, ⟨.part i, true⟩ :: r.2.2.1, r.2.2.2)
    else ([], [], [⟨.part i, false⟩], false)

/-- Embeds `ZPMetaServer::Distribute`.  `wRep i` is the oracle for the `PART:<i>`
write, `wMT` for the `MT` write, `wPN` for the `PN` write.  As in the source,
a failed `MT` write is only logged and the `PN` write still happens. -/
def distribute (srv : MetaServer) (num : Int) (wRep : Nat → Bool) (wMT wPN : Bool) :
    St × MetaServer × List WEv :=
  if partitionNums srv ≠ 0 then (.corruption "Already Distribute", srv, [])
  else
    match srv.store.nd with
    | none => (.notFound "not found from floyd", srv, [])
    | some nodes =>
      let tAlive := getAllAliveNode nodes
      if tAlive.isEmpty then (.corruption "no nodes", srv, [])
      else
        let aliveNodes := reorganize tAlive
        let anum := aliveNodes.length
        let r := distLoop aliveNodes anum wRep 0 num.toNat
        let srv1 := { srv with store :=
          { srv.store with parts := r.1.foldl (fun ps kv => partsSet ps kv.1 kv.2) srv.store.parts } }
        if r.2.2.2 then
          let ms : MsInfo := { version := srv.version + 1, info := r.2.1 }
          let srv2 :=
            if wMT then { srv1 with store := { srv1.store with mt := some ms },
                                    version := srv1.version + 1 }
            else srv1
          let evs := r.2.2.1 ++ [⟨.mt, wMT⟩]
          if wPN then (.ok, { srv2 with store := { srv2.store with pn := some num } },
                       evs ++ [⟨.pn, true⟩])
          else (.corruption "floyd set error!", srv2, evs ++ [⟨.pn, false⟩])
        else (.corruption "floyd set error!", srv1, r.2.2.1)

/-- The nodes list held under an optional `ND` value. -/
def ndList (o : Option Nodes) : List NodeStatus :=
  match o with
  | some n => n.nodes
  | none => []

/-- Spec invariant I6 / P3: every endpoint in the liveness map has an UP entry
in the persisted nodes table. -/
def livenessInv (srv : MetaServer) : Prop :=
  ∀ kv ∈ srv.nodeAlive, ∃ ns ∈ ndList srv.store.nd,
    ns.node.ip = kv.1.1 ∧ ns.node.port = kv.1.2 ∧ ns.status = 0

instance livenessInvDecidable (srv : MetaServer) : Decidable (livenessInv srv) :=
  inferInstanceAs (Decidable (∀ kv ∈ srv.nodeAlive, ∃ ns ∈ ndList srv.store.nd,
    ns.node.ip = kv.1.1 ∧ ns.node.port = kv.1.2 ∧ ns.status = 0))

/-! ### Concrete scenario states used by the evaluation theorems -/

/-- An UP node on host `10.0.0.1`. -/
def nsA1 : NodeStatus := ⟨⟨"10.0.0.1", 1⟩, 0⟩

/-- UP nodes on host `10.0.0.2`, ports 1–4. -/
def nsB1 : NodeStatus := ⟨⟨"10.0.0.2", 1⟩, 0⟩

def nsB2 : NodeStatus := ⟨⟨"10.0.0.2", 2⟩, 0⟩

def nsB3 : NodeStatus := ⟨⟨"10.0.0.2", 3⟩, 0⟩

def nsB4 : NodeStatus := ⟨⟨"10.0.0.2", 4⟩, 0⟩

/-- Five UP nodes: one on `10.0.0.1` and four on `10.0.0.2`. -/
def reorgInput : List NodeStatus := [nsA1, nsB1, nsB2, nsB3, nsB4]

/-- An UP node `(ip, 5000)`. -/
def mkUp (ip : String) : NodeStatus := ⟨⟨ip, 5000⟩, 0⟩

/-- Fresh cluster after three JOINs (spec scenario S2): no `MT`, no `PN`,
three UP nodes on three distinct hosts. -/
def c6Store : FloydStore :=
  { mt := none, nd := some ⟨[mkUp "10.0.0.1", mkUp "10.0.0.2", mkUp "10.0.0.3"]⟩,
    pn := none, parts := [] }

/-- The leader over `c6Store`, with `version_` set by `InitVersion`. -/
def srvC6 : MetaServer :=
  { store := c6Store, version := initVersion c6Store, nodeAlive := [] }

/-- Fresh cluster with a single UP node. -/
def srvOne : MetaServer :=
  { store := { mt := none, nd := some ⟨[mkUp "10.0.0.1"]⟩, pn := none, parts := [] },
    version := -1, nodeAlive := [] }

/-- A completely empty server state. -/
def srvEmpty : MetaServer :=
  { store := { mt := none, nd := none, pn := none, parts := [] },
    version := -1, nodeAlive := [] }

/-- A state whose `PN` key is already set to `4`. -/
def srvPN4 : MetaServer :=
  { store := { mt := none, nd := some ⟨[mkUp "10.0.0.1"]⟩, pn := some 4, parts := [] },
    version := -1, nodeAlive := [] }

/-- A state whose only recorded node is DOWN. -/
def srvDown : MetaServer :=
  { store := { mt := none, nd := some ⟨[⟨⟨"10.0.0.1", 1⟩, 1⟩]⟩, pn := none, parts := [] },
    version := -1, nodeAlive := [] }

/-- A returning endpoint used in the promotion scenario. -/
def nodeE : Node := ⟨"10.0.0.9", 1⟩

/-- An orphaned partition (empty master) whose slaves hold `nodeE` first. -/
def pC3 : Partition := ⟨0, ⟨"", 0⟩, [nodeE, ⟨"10.0.0.8", 2⟩]⟩

/-- A one-partition table containing the orphaned partition `pC3`. -/
def msC3 : MsInfo := ⟨7, [pC3]⟩

/-- A leader whose persisted table is `msC3`. -/
def srvC3 : MetaServer :=
  { store := { mt := some msC3, nd := none, pn := none, parts := [] },
    version := 7, nodeAlive := [] }

/-- A master endpoint used in the failover scenario. -/
def nodeM : Node := ⟨"10.0.0.1", 1⟩

/-- A partition mastered by `nodeM` with one slave on `10.0.0.2`. -/
def pC2 : Partition := ⟨0, nodeM, [⟨"10.0.0.2", 2⟩]⟩

/-- A one-partition table containing `pC2`. -/
def msC2 : MsInfo := ⟨3, [pC2]⟩

/-- Nodes table carrying `nodeM` and its slave, both UP. -/
def ndC2 : Nodes := ⟨[⟨nodeM, 0⟩, ⟨⟨"10.0.0.2", 2⟩, 0⟩]⟩

/-- A leader over `msC2`/`ndC2`, used for the failover instantiation. -/
def srvC2 : MetaServer :=
  { store := { mt := some msC2, nd := some ndC2, pn := some 1, parts := [] },
    version := 3, nodeAlive := [] }

end Zeppelin

namespace Zeppelin

/-! ### C4: Reorganize termination and completeness (code bug) -/

/-- C4: refuted on the code.  With one UP node on `10.0.0.1` and four on
`10.0.0.2`, `Reorganize` terminates after four rounds (the accumulated
`empty_count` reaches the bucket count) while bucket `10.0.0.2` still holds
`nsB1`: the output has only 4 of the 5 input nodes, so an alive node is
omitted.  The final conjunct shows the break is genuine, not an artifact of
the fuel totalization: every fuel value of at least 4 yields the same
truncated output. -/
theorem reorganize_drops_node :
    reorganize reorgInput = [nsA1, nsB4, nsB3, nsB2] ∧
    reorgInput.length = 5 ∧
    nsB1 ∈ reorgInput ∧
    nsB1 ∉ reorganize reorgInput ∧
    (bucketsOf reorgInput).length = 2 ∧
    ∀ k : Nat, reorganizeLoop (k + 4) (bucketsOf reorgInput) 0 2 [] = [nsA1, nsB4, nsB3, nsB2] :=
  ⟨by decide, by decide, by decide, by decide, by decide, fun _ => rfl⟩

/-! ### C6: first INIT on a fresh three-host cluster -/

/-- C6: counterexample to the claimed `version = 1`.  On the fresh cluster the
cached version is `initVersion = -1` (empty `MT` read), so the first
successful `Distribute` persists a table with `version = -1 + 1 = 0`, not
`1`. -/
theorem distribute_fresh_version_zero :
    srvC6.version = -1 ∧
    (distribute srvC6 4 (fun _ => true) true true).1 = St.ok ∧
    ((distribute srvC6 4 (fun _ => true) true true).2.1.store.mt.map MsInfo.version) = some 0 ∧
    ¬((distribute srvC6 4 (fun _ => true) true true).2.1.store.mt.map MsInfo.version = some 1) := by
  decide

/-- C6 (amended): the first `INIT{num=4}` on the fresh three-host cluster
succeeds, persists `PN = 4` and a table of version `0` whose partitions
`0..3` each have a distinct master and two distinct slaves drawn from the
three hosts. -/
theorem distribute_fresh_layout :
    (distribute srvC6 4 (fun _ => true) true true).1 = St.ok ∧
    (distribute srvC6 4 (fun _ => true) true true).2.1.store.pn = some 4 ∧
    (distribute srvC6 4 (fun _ => true) true true).2.1.store.mt = some
      ⟨0, [⟨0, ⟨"10.0.0.1", 5000⟩, [⟨"10.0.0.2", 5000⟩, ⟨"10.0.0.3", 5000⟩]⟩,
           ⟨1, ⟨"10.0.0.2", 5000⟩, [⟨"10.0.0.3", 5000⟩, ⟨"10.0.0.1", 5000⟩]⟩,
           ⟨2, ⟨"10.0.0.3", 5000⟩, [⟨"10.0.0.1", 5000⟩, ⟨"10.0.0.2", 5000⟩]⟩,
           ⟨3, ⟨"10.0.0.1", 5000⟩, [⟨"10.0.0.2", 5000⟩, ⟨"10.0.0.3", 5000⟩]⟩]⟩ ∧
    ([⟨0, ⟨"10.0.0.1", 5000⟩, [⟨"10.0.0.2", 5000⟩, ⟨"10.0.0.3", 5000⟩]⟩,
      ⟨1, ⟨"10.0.0.2", 5000⟩, [⟨"10.0.0.3", 5000⟩, ⟨"10.0.0.1", 5000⟩]⟩,
      ⟨2, ⟨"10.0.0.3", 5000⟩, [⟨"10.0.0.1", 5000⟩, ⟨"10.0.0.2", 5000⟩]⟩,
      ⟨3, ⟨"10.0.0.1", 5000⟩, [⟨"10.0.0.2", 5000⟩, ⟨"10.0.0.3", 5000⟩]⟩] : List Partition).all
      (fun p => decide (p.master ∉ p.slaves ∧ p.slaves.Nodup ∧ p.slaves.length = 2)) = true := by
  decide

/-! ### C7: behavior when the MT consensus write fails inside Distribute (code bug) -/

/-- C7: the code contradicts the claim.  When the `SetMSInfo` write fails
(`wMT = false`) but the `PN` write succeeds, `Distribute` does not stop: it
still persists `PN = 4` and reports `OK`, even though `MT` was never written
and the cached epoch did not advance. -/
theorem distribute_continues_after_mt_failure :
    (distribute srvC6 4 (fun _ => true) false true).1 = St.ok ∧
    (distribute srvC6 4 (fun _ => true) false true).2.1.store.pn = some 4 ∧
    (distribute srvC6 4 (fun _ => true) false true).2.1.store.mt = none ∧
    (distribute srvC6 4 (fun _ => true) false true).2.1.version = srvC6.version ∧
    (⟨FKey.mt, false⟩ : WEv) ∈ (distribute srvC6 4 (fun _ => true) false true).2.2 := by
  decide

end Zeppelin

namespace Zeppelin

/-! ### C5: INIT sequences -/

/-- Helper: when every `SetReplicaset` write succeeds, the `Distribute` loop
runs to completion. -/
theorem distLoop_ok_of_all (aliveNodes : List NodeStatus) (anum : Nat) (wRep : Nat → Bool)
    (hw : ∀ i, wRep i = true) : ∀ n i, (distLoop aliveNodes anum wRep i n).2.2.2 = true := by
  intro n
  induction n with
  | zero => intro i; rfl
  | succ n ih =>
    intro i
    simp only [distLoop, hw i, if_true]
    exact ih (i + 1)

/-- C5: counterexample to "every subsequent Distribute call returns
Corruption".  With `num = 0` the first call succeeds and persists `PN = 0`,
so the guard `PartitionNums() != 0` does not fire on the second call: the
second `Distribute(0)` succeeds again and mutates the persisted state. -/
theorem distribute_zero_reinit :
    (distribute srvOne 0 (fun _ => true) true true).1 = St.ok ∧
    (distribute srvOne 0 (fun _ => true) true true).2.1.store.pn = some 0 ∧
    (distribute (distribute srvOne 0 (fun _ => true) true true).2.1 0 (fun _ => true) true true).1
      = St.ok ∧
    (distribute (distribute srvOne 0 (fun _ => true) true true).2.1 0 (fun _ => true) true true).2.1
      ≠ (distribute srvOne 0 (fun _ => true) true true).2.1 := by
  decide

/-- C5 (amended): for `Distribute(num)` sequences with `num ≠ 0`: the first
call (with at least one UP node and successful writes) returns OK and
persists `PN = num`; every subsequent call returns
`Corruption("Already Distribute")` without touching state; and a call with an
empty UP set returns `Corruption("no nodes")` without touching state. -/
theorem distribute_init_sequence :
    (∀ (srv : MetaServer) (nodes : Nodes) (num : Int) (wRep : Nat → Bool),
      srv.store.pn = none → srv.store.nd = some nodes → getAllAliveNode nodes ≠ [] →
      (∀ i, wRep i = true) →
      (distribute srv num wRep true true).1 = St.ok ∧
      (distribute srv num wRep true true).2.1.store.pn = some num) ∧
    (∀ (srv : MetaServer) (num : Int) (wRep : Nat → Bool) (wMT wPN : Bool),
      srv.store.pn = some num → num ≠ 0 →
      distribute srv num wRep wMT wPN = (St.corruption "Already Distribute", srv, [])) ∧
    (∀ (srv : MetaServer) (nodes : Nodes) (num : Int) (wRep : Nat → Bool) (wMT wPN : Bool),
      srv.store.pn = none → srv.store.nd = some nodes → getAllAliveNode nodes = [] →
      distribute srv num wRep wMT wPN = (St.corruption "no nodes", srv, [])) := by
  refine ⟨?_, ?_, ?_⟩
  · intro srv nodes num wRep hpn hnd hne hw
    have h0 : partitionNums srv = 0 := by
      simp [partitionNums, readPN, hpn, partitionNumsOfRead]
    have hflag := distLoop_ok_of_all (reorganize (getAllAliveNode nodes))
      (reorganize (getAllAliveNode nodes)).length wRep hw num.toNat 0
    unfold distribute
    rw [h0, hnd]
    simp only [ne_eq, not_true_eq_false, if_false, ite_false]
    simp [List.isEmpty_iff, hne, hflag]
  · intro srv num wRep wMT wPN hpn hnum
    have h0 : partitionNums srv = num := by
      simp [partitionNums, readPN, hpn, partitionNumsOfRead]
    unfold distribute
    rw [h0]
    simp [hnum]
  · intro srv nodes num wRep wMT wPN hpn hnd hempty
    have h0 : partitionNums srv = 0 := by
      simp [partitionNums, readPN, hpn, partitionNumsOfRead]
    unfold distribute
    rw [h0, hnd]
    simp [hempty]

/-- Instantiation of `distribute_init_sequence`: first call on `srvOne`,
second call on `srvPN4`, empty-UP call on `srvDown`. -/
theorem distribute_init_sequence_witness :
    ((distribute srvOne 4 (fun _ => true) true true).1 = St.ok ∧
      (distribute srvOne 4 (fun _ => true) true true).2.1.store.pn = some 4) ∧
    distribute srvPN4 4 (fun _ => true) true true = (St.corruption "Already Distribute", srvPN4, []) ∧
    distribute srvDown 4 (fun _ => true) true true = (St.corruption "no nodes", srvDown, []) :=
  ⟨distribute_init_sequence.1 srvOne ⟨[mkUp "10.0.0.1"]⟩ 4 (fun _ => true) rfl rfl
      (by decide) (fun _ => rfl),
   distribute_init_sequence.2.1 srvPN4 4 (fun _ => true) true true rfl (by decide),
   distribute_init_sequence.2.2 srvDown ⟨[⟨⟨"10.0.0.1", 1⟩, 1⟩]⟩ 4 (fun _ => true) true true
      rfl rfl (by decide)⟩

/-! ### C10: PartitionNums defaulting -/

/-- C10: `PartitionNums` returns `0` both when the dirty read reports
NotFound and when it fails outright; consequently on a state whose `PN` key
is absent the `Distribute` guard never reports "Already Distribute" and the
call proceeds to initial placement. -/
theorem partition_nums_defaults_zero :
    partitionNumsOfRead (FloydRead.notFound : FloydRead Int) = 0 ∧
    partitionNumsOfRead (FloydRead.err : FloydRead Int) = 0 ∧
    (∀ srv : MetaServer, srv.store.pn = none → partitionNums srv = 0) ∧
    (∀ (srv : MetaServer) (num : Int) (wRep : Nat → Bool) (wMT wPN : Bool),
      srv.store.pn = none →
      (distribute srv num wRep wMT wPN).1 ≠ St.corruption "Already Distribute") := by
  refine ⟨rfl, rfl, ?_, ?_⟩
  · intro srv h
    simp [partitionNums, readPN, h, partitionNumsOfRead]
  · intro srv num wRep wMT wPN h
    have h0 : partitionNums srv = 0 := by
      simp [partitionNums, readPN, h, partitionNumsOfRead]
    unfold distribute
    rw [h0]
    simp only [ne_eq, not_true_eq_false, ite_false]
    split
    · simp
    · split
      · simp
      · split
        · split <;> simp
        · simp

/-- Instantiation of `partition_nums_defaults_zero` at the fresh state. -/
theorem partition_nums_defaults_zero_witness :
    partitionNums srvC6 = 0 ∧
    (distribute srvC6 4 (fun _ => true) true true).1 ≠ St.corruption "Already Distribute" :=
  ⟨partition_nums_defaults_zero.2.2.1 srvC6 rfl,
   partition_nums_defaults_zero.2.2.2 srvC6 4 (fun _ => true) true true rfl⟩

end Zeppelin

namespace Zeppelin

/-! ### Frame lemmas for the topology operations -/

/-- Frame: `OnNode` only ever touches `MT` and the cached version. -/
theorem onNode_frame (srv : MetaServer) (ip : String) (port : Int) (wMT : Bool) :
    (onNode srv ip port wMT).2.1.store.nd = srv.store.nd ∧
    (onNode srv ip port wMT).2.1.store.pn = srv.store.pn ∧
    (onNode srv ip port wMT).2.1.nodeAlive = srv.nodeAlive := by
  unfold onNode
  split
  · simp
  · dsimp only
    split
    · split <;> simp
    · simp

/-- Frame: `SetNodeStatus` with target status DOWN never touches `MT`, the version,
or the liveness map, and only ever writes `ND`. -/
theorem setNodeStatus_down_frame (srv : MetaServer) (nodes : Nodes) (ip : String) (port : Int)
    (wND wMT : Bool) :
    (setNodeStatus srv nodes ip port 1 wND wMT).2.1.version = srv.version ∧
    (setNodeStatus srv nodes ip port 1 wND wMT).2.1.store.mt = srv.store.mt ∧
    (setNodeStatus srv nodes ip port 1 wND wMT).2.1.nodeAlive = srv.nodeAlive ∧
    ∀ ev ∈ (setNodeStatus srv nodes ip port 1 wND wMT).2.2, ev.key = FKey.nd := by
  unfold setNodeStatus
  split
  · simp
  · split
    · split
      · simp
      · simp
    · simp

/-- Lemma: `setStatusList` finds an entry exactly when the endpoint occurs. -/
theorem setStatusList_isSome (l : List NodeStatus) (ip : String) (port : Int) (status : Nat)
    (h : l.any (fun ns => ns.node.ip == ip && ns.node.port == port) = true) :
    ∃ lc, setStatusList l ip port status = some lc := by
  induction l with
  | nil => simp at h
  | cons ns rest ih =>
    unfold setStatusList
    by_cases hm : ns.node.ip = ip ∧ ns.node.port = port
    · rw [if_pos hm]
      split
      · exact ⟨_, rfl⟩
      · exact ⟨_, rfl⟩
    · rw [if_neg hm]
      have h2 : rest.any (fun ns => ns.node.ip == ip && ns.node.port == port) = true := by
        simp only [List.any_cons, Bool.or_eq_true, Bool.and_eq_true, beq_iff_eq] at h
        rcases h with h | h
        · exact absurd h hm
        · simpa using h
      obtain ⟨lc, hlc⟩ := ih h2
      rw [hlc]
      exact ⟨_, rfl⟩

/-- Flipping a recorded endpoint DOWN succeeds when the `ND` write succeeds. -/
theorem setNodeStatus_down_ok (srv : MetaServer) (nodes : Nodes) (ip : String) (port : Int)
    (wMT : Bool) (hfound : findNode nodes ip port = true) :
    (setNodeStatus srv nodes ip port 1 true wMT).1 = St.ok := by
  obtain ⟨⟨l, c⟩, hl⟩ := setStatusList_isSome nodes.nodes ip port 1 hfound
  unfold setNodeStatus
  rw [hl]
  dsimp only
  split
  · simp
  · rfl

/-- A boolean endpoint match pins down the node value. -/
theorem node_eq_of_match (s e : Node) (h : (s.ip == e.ip && s.port == e.port) = true) : s = e := by
  simp only [Bool.and_eq_true, beq_iff_eq] at h
  cases s
  cases e
  simp_all

end Zeppelin

namespace Zeppelin

/-! ### C3: OnNode promotes a returning slave of an orphaned partition -/

/-- C3: for `OnNode(e)`, every partition `P` of the persisted table whose
master is the empty endpoint and whose slaves contain `e` at (first) index
`j` is rewritten so that `e` becomes the master, the slaves list shrinks by
one, and (when slot `j` still exists) the former last slave occupies slot
`j`; the table is persisted with the cached version plus one. -/
theorem onNode_promotes_slave
    (srv : MetaServer) (ms : MsInfo) (e : Node) (i j : Nat) (p : Partition)
    (st : St) (srv2 : MetaServer) (evs : List WEv)
    (hmt : srv.store.mt = some ms)
    (hi : i < ms.info.length)
    (hp : ms.info.getD i default = p)
    (hmaster : p.master = ⟨"", 0⟩)
    (hj : p.slaves.findIdx? (fun s => s.ip == e.ip && s.port == e.port) = some j)
    (heq : onNode srv e.ip e.port true = (st, srv2, evs)) :
    st = St.ok ∧
    ∃ info2, srv2.store.mt = some ⟨srv.version + 1, info2⟩ ∧
      srv2.version = srv.version + 1 ∧
      info2.length = ms.info.length ∧
      (info2.getD i default).master = e ∧
      (info2.getD i default).slaves.length + 1 = p.slaves.length ∧
      (j + 1 < p.slaves.length →
        (info2.getD i default).slaves.getD j default = p.slaves.getLastD default) := by
  obtain ⟨hjlt, hpj, -⟩ := List.findIdx?_eq_some_iff_getElem.mp hj
  have hsj : p.slaves[j] = e := node_eq_of_match _ _ (by simpa using hpj)
  have hgd : ms.info.getD i default = ms.info[i] := by
    rw [List.getD_eq_getElem?_getD, List.getElem?_eq_getElem hi]
    rfl
  have hip : ms.info[i] = p := by rw [← hgd, hp]
  have hmem : p ∈ ms.info := by
    rw [← hip]
    exact List.getElem_mem hi
  have hgdj : p.slaves.getD j default = e := by
    rw [List.getD_eq_getElem?_getD, List.getElem?_eq_getElem hjlt]
    simpa using hsj
  have hfp : onNodePartition e.ip e.port p =
      (true, { p with master := p.slaves.getD j default,
                      slaves := (p.slaves.set j (p.slaves.getLastD default)).dropLast }) := by
    unfold onNodePartition
    rw [hmaster]
    simp [hj]
  have hany : (ms.info.map (onNodePartition e.ip e.port)).any (·.1) = true := by
    refine List.any_eq_true.mpr ⟨onNodePartition e.ip e.port p, List.mem_map_of_mem _ hmem, ?_⟩
    simp [hfp]
  unfold onNode at heq
  rw [hmt] at heq
  dsimp only at heq
  rw [hany] at heq
  simp only [if_true] at heq
  injection heq with h1 h23
  injection h23 with h2 h3
  subst h1
  subst h2
  refine ⟨rfl, (ms.info.map (onNodePartition e.ip e.port)).map (·.2), rfl, rfl, by simp, ?_, ?_, ?_⟩
  · have : (((ms.info.map (onNodePartition e.ip e.port)).map (·.2)).getD i default) =
        (onNodePartition e.ip e.port p).2 := by
      rw [List.getD_eq_getElem?_getD, List.getElem?_eq_getElem (by simpa using hi)]
      simp [hip]
    rw [this, hfp, hgdj]
  · have : (((ms.info.map (onNodePartition e.ip e.port)).map (·.2)).getD i default) =
        (onNodePartition e.ip e.port p).2 := by
      rw [List.getD_eq_getElem?_getD, List.getElem?_eq_getElem (by simpa using hi)]
      simp [hip]
    rw [this, hfp]
    simp only [List.length_dropLast, List.length_set]
    omega
  · intro hlt
    have : (((ms.info.map (onNodePartition e.ip e.port)).map (·.2)).getD i default) =
        (onNodePartition e.ip e.port p).2 := by
      rw [List.getD_eq_getElem?_getD, List.getElem?_eq_getElem (by simpa using hi)]
      simp [hip]
    rw [this, hfp]
    have hlt2 : j < ((p.slaves.set j (p.slaves.getLastD default)).dropLast).length := by
      simp only [List.length_dropLast, List.length_set]
      omega
    rw [List.getD_eq_getElem?_getD, List.getElem?_eq_getElem hlt2]
    rw [List.getElem_dropLast]
    simp

end Zeppelin
namespace Zeppelin

/-- Instantiation of `onNode_promotes_slave` on the concrete orphaned
partition `pC3`: the returning slave `nodeE` becomes master, the slaves list
shrinks from two entries to one, and the former last slave moves to slot 0. -/
theorem onNode_promotes_slave_witness :
    (onNode srvC3 "10.0.0.9" 1 true).1 = St.ok ∧
    ∃ info2, (onNode srvC3 "10.0.0.9" 1 true).2.1.store.mt = some ⟨srvC3.version + 1, info2⟩ ∧
      (onNode srvC3 "10.0.0.9" 1 true).2.1.version = srvC3.version + 1 ∧
      info2.length = msC3.info.length ∧
      (info2.getD 0 default).master = nodeE ∧
      (info2.getD 0 default).slaves.length + 1 = pC3.slaves.length ∧
      (0 + 1 < pC3.slaves.length →
        (info2.getD 0 default).slaves.getD 0 default = pC3.slaves.getLastD default) :=
  onNode_promotes_slave srvC3 msC3 nodeE 0 0 pC3
    (onNode srvC3 "10.0.0.9" 1 true).1
    (onNode srvC3 "10.0.0.9" 1 true).2.1
    (onNode srvC3 "10.0.0.9" 1 true).2.2
    rfl (by decide) rfl rfl (by decide) rfl

/-! ### C2: OffNode fails the master over to the first alive slave -/

/-- C2: for `OffNode(e)` with `e` recorded in the nodes table and master of
partition `p` (at index `i` of the persisted table): the table is rewritten
with the cached version plus one, and for `p` either the first slave that is
in the UP set (computed before the flip) becomes the master with `e` taking
its slot — so under the data-model invariant that slaves are distinct from
the master and are real endpoints, the new master is non-empty and differs
from `e` — or no slave is alive, `e` is appended to the slaves and the
master becomes the empty endpoint. -/
theorem offNode_master_failover
    (srv : MetaServer) (nodes : Nodes) (ms : MsInfo) (e : Node) (i : Nat) (p : Partition)
    (st : St) (srv2 : MetaServer) (evs : List WEv)
    (hnd : srv.store.nd = some nodes)
    (hfound : findNode nodes e.ip e.port = true)
    (hmt : srv.store.mt = some ms)
    (hi : i < ms.info.length)
    (hp : ms.info.getD i default = p)
    (hmaster : p.master = e)
    (heq : offNode srv e.ip e.port true true = (st, srv2, evs)) :
    st = St.ok ∧
    ∃ info2, srv2.store.mt = some ⟨srv.version + 1, info2⟩ ∧
      srv2.version = srv.version + 1 ∧
      info2.length = ms.info.length ∧
      ((∃ j, p.slaves.findIdx? (fun s => isAlive (getAllAliveNode nodes) s.ip s.port) = some j ∧
          info2.getD i default = { p with master := p.slaves.getD j default,
                                          slaves := p.slaves.set j e } ∧
          p.slaves.getD j default ∈ p.slaves ∧
          ((∀ s ∈ p.slaves, s ≠ e ∧ s ≠ (⟨"", 0⟩ : Node)) →
            (info2.getD i default).master ≠ e ∧
            (info2.getD i default).master ≠ (⟨"", 0⟩ : Node))) ∨
       ((∀ s ∈ p.slaves, isAlive (getAllAliveNode nodes) s.ip s.port = false) ∧
        info2.getD i default = { p with master := (⟨"", 0⟩ : Node),
                                        slaves := p.slaves ++ [e] })) := by
  have hok := setNodeStatus_down_ok srv nodes e.ip e.port true hfound
  have frame := setNodeStatus_down_frame srv nodes e.ip e.port true true
  have hgd : ms.info.getD i default = ms.info[i] := by
    rw [List.getD_eq_getElem?_getD, List.getElem?_eq_getElem hi]
    rfl
  have hip : ms.info[i] = p := by rw [← hgd, hp]
  have hmem : p ∈ ms.info := by
    rw [← hip]
    exact List.getElem_mem hi
  have hcond : p.master.ip = e.ip ∧ p.master.port = e.port := by rw [hmaster]; exact ⟨rfl, rfl⟩
  have hflag : (offNodePartition (getAllAliveNode nodes) e.ip e.port p).1 = true := by
    unfold offNodePartition
    rw [if_pos hcond]
    cases p.slaves.findIdx? (fun s => isAlive (getAllAliveNode nodes) s.ip s.port) <;> rfl
  have hany : (ms.info.map (offNodePartition (getAllAliveNode nodes) e.ip e.port)).any (·.1)
      = true := by
    refine List.any_eq_true.mpr
      ⟨offNodePartition (getAllAliveNode nodes) e.ip e.port p, List.mem_map_of_mem _ hmem, hflag⟩
  unfold offNode at heq
  rw [hnd] at heq
  dsimp only at heq
  rw [if_neg (by simp [hok])] at heq
  rw [frame.2.1, hmt] at heq
  dsimp only at heq
  rw [hany] at heq
  simp only [if_true] at heq
  injection heq with h1 h23
  injection h23 with h2 h3
  subst h1
  subst h2
  refine ⟨rfl,
    (ms.info.map (offNodePartition (getAllAliveNode nodes) e.ip e.port)).map (·.2),
    ?_, ?_, by simp, ?_⟩
  · rw [frame.1]
  · rw [frame.1]
  · have hi2 : ((ms.info.map (offNodePartition (getAllAliveNode nodes) e.ip e.port)).map
        (·.2)).getD i default = (offNodePartition (getAllAliveNode nodes) e.ip e.port p).2 := by
      rw [List.getD_eq_getElem?_getD, List.getElem?_eq_getElem (by simpa using hi)]
      simp [hip]
    cases hcase : p.slaves.findIdx? (fun s => isAlive (getAllAliveNode nodes) s.ip s.port) with
    | none =>
      refine Or.inr ⟨?_, ?_⟩
      · intro s hs
        have := List.findIdx?_eq_none_iff.mp hcase s hs
        simpa using this
      · rw [hi2]
        unfold offNodePartition
        rw [if_pos hcond, hcase, hmaster]
    | some j =>
      obtain ⟨hjlt, -, -⟩ := List.findIdx?_eq_some_iff_getElem.mp hcase
      have hmemj : p.slaves.getD j default ∈ p.slaves := by
        rw [List.getD_eq_getElem?_getD, List.getElem?_eq_getElem hjlt]
        exact List.getElem_mem hjlt
      have hfp2 : (offNodePartition (getAllAliveNode nodes) e.ip e.port p).2 =
          { p with master := p.slaves.getD j default, slaves := p.slaves.set j p.master } := by
        unfold offNodePartition
        rw [if_pos hcond, hcase]
      refine Or.inl ⟨j, rfl, ?_, hmemj, ?_⟩
      · rw [hi2, hfp2, hmaster]
      · intro hdist
        rw [hi2, hfp2]
        exact hdist _ hmemj

end Zeppelin

namespace Zeppelin

/-- Instantiation of `offNode_master_failover` on `srvC2`: the single UP
slave on `10.0.0.2` is promoted and the former master takes its slot. -/
theorem offNode_master_failover_witness :
    (offNode srvC2 "10.0.0.1" 1 true true).1 = St.ok ∧
    ∃ info2, (offNode srvC2 "10.0.0.1" 1 true true).2.1.store.mt
        = some ⟨srvC2.version + 1, info2⟩ ∧
      (offNode srvC2 "10.0.0.1" 1 true true).2.1.version = srvC2.version + 1 ∧
      info2.length = msC2.info.length ∧
      ((∃ j, pC2.slaves.findIdx? (fun s => isAlive (getAllAliveNode ndC2) s.ip s.port) = some j ∧
          info2.getD 0 default = { pC2 with master := pC2.slaves.getD j default,
                                            slaves := pC2.slaves.set j nodeM } ∧
          pC2.slaves.getD j default ∈ pC2.slaves ∧
          ((∀ s ∈ pC2.slaves, s ≠ nodeM ∧ s ≠ (⟨"", 0⟩ : Node)) →
            (info2.getD 0 default).master ≠ nodeM ∧
            (info2.getD 0 default).master ≠ (⟨"", 0⟩ : Node))) ∨
       ((∀ s ∈ pC2.slaves, isAlive (getAllAliveNode ndC2) s.ip s.port = false) ∧
        info2.getD 0 default = { pC2 with master := (⟨"", 0⟩ : Node),
                                          slaves := pC2.slaves ++ [nodeM] })) :=
  offNode_master_failover srvC2 ndC2 msC2 nodeM 0 pC2
    (offNode srvC2 "10.0.0.1" 1 true true).1
    (offNode srvC2 "10.0.0.1" 1 true true).2.1
    (offNode srvC2 "10.0.0.1" 1 true true).2.2
    rfl (by decide) rfl (by decide) rfl rfl rfl

/-! ### C8: no-op calls issue no MT write and leave the epoch unchanged -/

/-- C8: `OffNode(e)` when `e` masters no partition, and `OnNode(e)` when `e`
is a slave of no orphaned partition, issue no write to `MT`: the persisted
table and the cached version are identical before and after. -/
theorem no_change_no_mt_write :
    (∀ (srv : MetaServer) (ip : String) (port : Int) (wND wMT : Bool) (st : St)
        (srv2 : MetaServer) (evs : List WEv),
      offNode srv ip port wND wMT = (st, srv2, evs) →
      (∀ ms, srv.store.mt = some ms → ∀ p ∈ ms.info,
        ¬(p.master.ip = ip ∧ p.master.port = port)) →
      srv2.store.mt = srv.store.mt ∧ srv2.version = srv.version ∧
        ∀ ev ∈ evs, ev.key ≠ FKey.mt) ∧
    (∀ (srv : MetaServer) (ip : String) (port : Int) (wMT : Bool) (st : St)
        (srv2 : MetaServer) (evs : List WEv),
      onNode srv ip port wMT = (st, srv2, evs) →
      (∀ ms, srv.store.mt = some ms → ∀ p ∈ ms.info, (p.master.ip = "" ∧ p.master.port = 0) →
        ∀ s ∈ p.slaves, ¬(s.ip = ip ∧ s.port = port)) →
      srv2.store.mt = srv.store.mt ∧ srv2.version = srv.version ∧
        ∀ ev ∈ evs, ev.key ≠ FKey.mt) := by
  constructor
  · intro srv ip port wND wMT st srv2 evs heq hno
    cases hnd : srv.store.nd with
    | none =>
      unfold offNode at heq
      rw [hnd] at heq
      injection heq with h1 h23
      injection h23 with h2 h3
      subst h2
      subst h3
      simp
    | some nodes =>
      unfold offNode at heq
      rw [hnd] at heq
      dsimp only at heq
      have frame := setNodeStatus_down_frame srv nodes ip port wND wMT
      by_cases hok : (setNodeStatus srv nodes ip port 1 wND wMT).1 = St.ok
      · rw [if_neg (by simp [hok])] at heq
        rw [frame.2.1] at heq
        cases hmt : srv.store.mt with
        | none =>
          rw [hmt] at heq
          injection heq with h1 h23
          injection h23 with h2 h3
          subst h2
          subst h3
          refine ⟨frame.2.1.trans hmt, frame.1, fun ev hev => ?_⟩
          rw [frame.2.2.2 ev hev]
          simp
        | some ms =>
          rw [hmt] at heq
          dsimp only at heq
          have hfalse : (ms.info.map (offNodePartition (getAllAliveNode nodes) ip port)).any
              (·.1) = false := by
            rw [List.any_eq_false]
            intro y hy
            obtain ⟨q, hq, rfl⟩ := List.mem_map.mp hy
            unfold offNodePartition
            rw [if_neg (hno ms hmt q hq)]
            simp
          rw [hfalse] at heq
          simp only [Bool.false_eq_true, if_false] at heq
          injection heq with h1 h23
          injection h23 with h2 h3
          subst h2
          subst h3
          refine ⟨frame.2.1.trans hmt, frame.1, fun ev hev => ?_⟩
          rw [frame.2.2.2 ev hev]
          simp
      · rw [if_pos hok] at heq
        have h2 : srv2 = (setNodeStatus srv nodes ip port 1 wND wMT).2.1 := by rw [heq]
        have h3 : evs = (setNodeStatus srv nodes ip port 1 wND wMT).2.2 := by rw [heq]
        subst h2
        subst h3
        refine ⟨frame.2.1, frame.1, fun ev hev => ?_⟩
        rw [frame.2.2.2 ev hev]
        simp
  · intro srv ip port wMT st srv2 evs heq hno
    cases hmt : srv.store.mt with
    | none =>
      unfold onNode at heq
      rw [hmt] at heq
      injection heq with h1 h23
      injection h23 with h2 h3
      subst h2
      subst h3
      simp [hmt]
    | some ms =>
      unfold onNode at heq
      rw [hmt] at heq
      dsimp only at heq
      have hfalse : (ms.info.map (onNodePartition ip port)).any (·.1) = false := by
        rw [List.any_eq_false]
        intro y hy
        obtain ⟨q, hq, rfl⟩ := List.mem_map.mp hy
        unfold onNodePartition
        by_cases hq0 : q.master.ip = "" ∧ q.master.port = 0
        · rw [if_pos hq0]
          have hnone : q.slaves.findIdx? (fun s => s.ip == ip && s.port == port) = none := by
            rw [List.findIdx?_eq_none_iff]
            intro s hs
            have := hno ms hmt q hq hq0 s hs
            by_contra hcontra
            simp only [Bool.not_eq_false, Bool.and_eq_true, beq_iff_eq] at hcontra
            exact this hcontra
          rw [hnone]
          exact Bool.false_ne_true
        · rw [if_neg hq0]
          exact Bool.false_ne_true
      rw [hfalse] at heq
      simp only [Bool.false_eq_true, if_false] at heq
      injection heq with h1 h23
      injection h23 with h2 h3
      subst h2
      subst h3
      simp [hmt]

end Zeppelin

namespace Zeppelin

/-- Instantiation of `no_change_no_mt_write`: `OffNode` of the slave endpoint
`10.0.0.2:2` (master of nothing), and `OnNode` of `10.0.0.7:9` (slave of no
orphaned partition). -/
theorem no_change_no_mt_write_witness :
    ((offNode srvC2 "10.0.0.2" 2 true true).2.1.store.mt = srvC2.store.mt ∧
      (offNode srvC2 "10.0.0.2" 2 true true).2.1.version = srvC2.version ∧
      ∀ ev ∈ (offNode srvC2 "10.0.0.2" 2 true true).2.2, ev.key ≠ FKey.mt) ∧
    ((onNode srvC3 "10.0.0.7" 9 true).2.1.store.mt = srvC3.store.mt ∧
      (onNode srvC3 "10.0.0.7" 9 true).2.1.version = srvC3.version ∧
      ∀ ev ∈ (onNode srvC3 "10.0.0.7" 9 true).2.2, ev.key ≠ FKey.mt) :=
  ⟨no_change_no_mt_write.1 srvC2 "10.0.0.2" 2 true true
      (offNode srvC2 "10.0.0.2" 2 true true).1
      (offNode srvC2 "10.0.0.2" 2 true true).2.1
      (offNode srvC2 "10.0.0.2" 2 true true).2.2 rfl
      (fun ms h => by injection h with h2; subst h2; decide),
   no_change_no_mt_write.2 srvC3 "10.0.0.7" 9 true
      (onNode srvC3 "10.0.0.7" 9 true).1
      (onNode srvC3 "10.0.0.7" 9 true).2.1
      (onNode srvC3 "10.0.0.7" 9 true).2.2 rfl
      (fun ms h => by injection h with h2; subst h2; decide)⟩

/-! ### C1: every successful MT write carries and installs version + 1 -/

/-- Helper: every write the `Distribute` loop performs targets a `PART:<id>`
key. -/
theorem distLoop_evs_part (aliveNodes : List NodeStatus) (anum : Nat) (wRep : Nat → Bool) :
    ∀ n i, ∀ ev ∈ (distLoop aliveNodes anum wRep i n).2.2.1, ∃ id2, ev.key = FKey.part id2 := by
  intro n
  induction n with
  | zero =>
    intro i ev hev
    simp [distLoop] at hev
  | succ n ih =>
    intro i ev hev
    simp only [distLoop] at hev
    split at hev
    · rcases List.mem_cons.mp hev with h | h
      · exact ⟨i, by rw [h]⟩
      · exact ih (i + 1) ev h
    · rcases List.mem_singleton.mp hev with h
      exact ⟨i, by rw [h]⟩

/-- C1: whenever `Distribute`, `OffNode` or `OnNode` performs a successful
write of the `MT` key, the persisted table carries the leader's cached
version plus exactly one, and the cached version is advanced by exactly
one. -/
theorem mt_write_bumps_version :
    (∀ (srv : MetaServer) (ip : String) (port : Int) (wND wMT : Bool) (st : St)
        (srv2 : MetaServer) (evs : List WEv),
      offNode srv ip port wND wMT = (st, srv2, evs) →
      (⟨FKey.mt, true⟩ : WEv) ∈ evs →
      (∃ ms2, srv2.store.mt = some ms2 ∧ ms2.version = srv.version + 1) ∧
        srv2.version = srv.version + 1) ∧
    (∀ (srv : MetaServer) (ip : String) (port : Int) (wMT : Bool) (st : St)
        (srv2 : MetaServer) (evs : List WEv),
      onNode srv ip port wMT = (st, srv2, evs) →
      (⟨FKey.mt, true⟩ : WEv) ∈ evs →
      (∃ ms2, srv2.store.mt = some ms2 ∧ ms2.version = srv.version + 1) ∧
        srv2.version = srv.version + 1) ∧
    (∀ (srv : MetaServer) (num : Int) (wRep : Nat → Bool) (wMT wPN : Bool) (st : St)
        (srv2 : MetaServer) (evs : List WEv),
      distribute srv num wRep wMT wPN = (st, srv2, evs) →
      (⟨FKey.mt, true⟩ : WEv) ∈ evs →
      (∃ ms2, srv2.store.mt = some ms2 ∧ ms2.version = srv.version + 1) ∧
        srv2.version = srv.version + 1) := by
  refine ⟨?_, ?_, ?_⟩
  · intro srv ip port wND wMT st srv2 evs heq hmem
    cases hnd : srv.store.nd with
    | none =>
      unfold offNode at heq
      rw [hnd] at heq
      injection heq with h1 h23
      injection h23 with h2 h3
      subst h3
      simp at hmem
    | some nodes =>
      unfold offNode at heq
      rw [hnd] at heq
      dsimp only at heq
      have frame := setNodeStatus_down_frame srv nodes ip port wND wMT
      by_cases hok : (setNodeStatus srv nodes ip port 1 wND wMT).1 = St.ok
      · rw [if_neg (by simp [hok])] at heq
        rw [frame.2.1] at heq
        cases hmt : srv.store.mt with
        | none =>
          rw [hmt] at heq
          injection heq with h1 h23
          injection h23 with h2 h3
          subst h3
          have := frame.2.2.2 _ hmem
          simp at this
        | some ms =>
          rw [hmt] at heq
          dsimp only at heq
          by_cases hsw : (ms.info.map (offNodePartition (getAllAliveNode nodes) ip port)).any
              (·.1) = true
          · rw [if_pos hsw] at heq
            cases wMT with
            | true =>
              rw [if_pos rfl] at heq
              injection heq with h1 h23
              injection h23 with h2 h3
              subst h2
              exact ⟨⟨_, rfl, by rw [frame.1]⟩, by rw [frame.1]⟩
            | false =>
              rw [if_neg (by simp)] at heq
              injection heq with h1 h23
              injection h23 with h2 h3
              subst h3
              rcases List.mem_append.mp hmem with h | h
              · have := frame.2.2.2 _ h
                simp at this
              · rcases List.mem_singleton.mp h with h
                injection h with hk hs
                exact absurd hs (by simp)
          · rw [if_neg hsw] at heq
            injection heq with h1 h23
            injection h23 with h2 h3
            subst h3
            have := frame.2.2.2 _ hmem
            simp at this
      · rw [if_pos hok] at heq
        have h3 : evs = (setNodeStatus srv nodes ip port 1 wND wMT).2.2 := by rw [heq]
        subst h3
        have := frame.2.2.2 _ hmem
        simp at this
  · intro srv ip port wMT st srv2 evs heq hmem
    cases hmt : srv.store.mt with
    | none =>
      unfold onNode at heq
      rw [hmt] at heq
      injection heq with h1 h23
      injection h23 with h2 h3
      subst h3
      simp at hmem
    | some ms =>
      unfold onNode at heq
      rw [hmt] at heq
      dsimp only at heq
      by_cases hsw : (ms.info.map (onNodePartition ip port)).any (·.1) = true
      · rw [if_pos hsw] at heq
        cases wMT with
        | true =>
          rw [if_pos rfl] at heq
          injection heq with h1 h23
          injection h23 with h2 h3
          subst h2
          exact ⟨⟨_, rfl, rfl⟩, rfl⟩
        | false =>
          rw [if_neg (by simp)] at heq
          injection heq with h1 h23
          injection h23 with h2 h3
          subst h3
          rcases List.mem_singleton.mp hmem with h
          injection h with hk hs
          exact absurd hs (by simp)
      · rw [if_neg hsw] at heq
        injection heq with h1 h23
        injection h23 with h2 h3
        subst h3
        simp at hmem
  · intro srv num wRep wMT wPN st srv2 evs heq hmem
    unfold distribute at heq
    by_cases hg : partitionNums srv ≠ 0
    · rw [if_pos hg] at heq
      injection heq with h1 h23
      injection h23 with h2 h3
      subst h3
      simp at hmem
    · rw [if_neg hg] at heq
      cases hnd : srv.store.nd with
      | none =>
        rw [hnd] at heq
        injection heq with h1 h23
        injection h23 with h2 h3
        subst h3
        simp at hmem
      | some nodes =>
        rw [hnd] at heq
        dsimp only at heq
        by_cases hempty : (getAllAliveNode nodes).isEmpty = true
        · rw [if_pos hempty] at heq
          injection heq with h1 h23
          injection h23 with h2 h3
          subst h3
          simp at hmem
        · rw [if_neg hempty] at heq
          by_cases hflag : (distLoop (reorganize (getAllAliveNode nodes))
              (reorganize (getAllAliveNode nodes)).length wRep 0 num.toNat).2.2.2 = true
          · rw [if_pos hflag] at heq
            cases wMT with
            | true =>
              cases wPN with
              | true =>
                rw [if_pos rfl] at heq
                injection heq with h1 h23
                injection h23 with h2 h3
                subst h2
                exact ⟨⟨_, rfl, rfl⟩, rfl⟩
              | false =>
                rw [if_neg (by simp)] at heq
                injection heq with h1 h23
                injection h23 with h2 h3
                subst h2
                exact ⟨⟨_, rfl, rfl⟩, rfl⟩
            | false =>
              have hpartevs := distLoop_evs_part (reorganize (getAllAliveNode nodes))
                (reorganize (getAllAliveNode nodes)).length wRep num.toNat 0
              cases wPN with
              | true =>
                rw [if_pos rfl] at heq
                injection heq with h1 h23
                injection h23 with h2 h3
                subst h3
                rcases List.mem_append.mp hmem with h | h
                · rcases List.mem_append.mp h with h | h
                  · obtain ⟨id2, hid⟩ := hpartevs _ h
                    simp at hid
                  · rcases List.mem_singleton.mp h with h
                    injection h with hk hs
                    exact absurd hs (by simp)
                · rcases List.mem_singleton.mp h with h
                  injection h with hk hs
                  exact absurd hk (by simp)
              | false =>
                rw [if_neg (by simp)] at heq
                injection heq with h1 h23
                injection h23 with h2 h3
                subst h3
                rcases List.mem_append.mp hmem with h | h
                · rcases List.mem_append.mp h with h | h
                  · obtain ⟨id2, hid⟩ := hpartevs _ h
                    simp at hid
                  · rcases List.mem_singleton.mp h with h
                    injection h with hk hs
                    exact absurd hs (by simp)
                · rcases List.mem_singleton.mp h with h
                  injection h with hk hs
                  exact absurd hk (by simp)
          · rw [if_neg hflag] at heq
            injection heq with h1 h23
            injection h23 with h2 h3
            subst h3
            obtain ⟨id2, hid⟩ := distLoop_evs_part (reorganize (getAllAliveNode nodes))
              (reorganize (getAllAliveNode nodes)).length wRep num.toNat 0 _ hmem
            simp at hid

/-- Instantiation of `mt_write_bumps_version` on the concrete failover
`offNode srvC2 10.0.0.1:1`, whose trace contains a successful `MT` write. -/
theorem mt_write_bumps_version_witness :
    (∃ ms2, (offNode srvC2 "10.0.0.1" 1 true true).2.1.store.mt = some ms2 ∧
       ms2.version = srvC2.version + 1) ∧
    (offNode srvC2 "10.0.0.1" 1 true true).2.1.version = srvC2.version + 1 :=
  mt_write_bumps_version.1 srvC2 "10.0.0.1" 1 true true
    (offNode srvC2 "10.0.0.1" 1 true true).1
    (offNode srvC2 "10.0.0.1" 1 true true).2.1
    (offNode srvC2 "10.0.0.1" 1 true true).2.2 rfl (by decide)

end Zeppelin

namespace Zeppelin

/-! ### C9: liveness map entries always have an UP record in the nodes table -/

/-- Membership after a `std::map` style update-or-insert. -/
theorem mem_aliveSet (m : List ((String × Int) × Int)) (k : String × Int) (now : Int)
    (kv : (String × Int) × Int) (h : kv ∈ aliveSet m k now) : kv.1 = k ∨ kv ∈ m := by
  unfold aliveSet at h
  split at h
  · obtain ⟨x, hx, hkv⟩ := List.mem_map.mp h
    by_cases hxk : x.1 = k
    · rw [if_pos hxk] at hkv
      left
      rw [← hkv]
    · rw [if_neg hxk] at hkv
      right
      rw [← hkv]
      exact hx
  · rcases List.mem_append.mp h with h | h
    · right
      exact h
    · left
      rw [List.mem_singleton.mp h]

/-- Lemma: `setStatusList` to UP preserves all UP entries, produces an UP entry for
the endpoint, and leaves the list untouched when nothing changed. -/
theorem setStatusList_up (l : List NodeStatus) (ip : String) (port : Int) :
    ∀ (l2 : List NodeStatus) (c : Bool), setStatusList l ip port 0 = some (l2, c) →
    (∀ a ∈ l, a.status = 0 → a ∈ l2) ∧
    (∃ a ∈ l2, a.node.ip = ip ∧ a.node.port = port ∧ a.status = 0) := by
  induction l with
  | nil =>
    intro l2 c h
    simp [setStatusList] at h
  | cons ns rest ih =>
    intro l2 c h
    unfold setStatusList at h
    by_cases hm : ns.node.ip = ip ∧ ns.node.port = port
    · rw [if_pos hm] at h
      by_cases hs : ns.status = 0
      · rw [if_pos hs] at h
        injection h with h'
        injection h' with hl hc
        subst hl
        exact ⟨fun a ha _ => ha, ⟨ns, List.mem_cons_self _ _, hm.1, hm.2, hs⟩⟩
      · rw [if_neg hs] at h
        injection h with h'
        injection h' with hl hc
        subst hl
        constructor
        · intro a ha h0
          rcases List.mem_cons.mp ha with rfl | ha'
          · exact absurd h0 hs
          · exact List.mem_cons_of_mem _ ha'
        · exact ⟨{ ns with status := 0 }, List.mem_cons_self _ _, hm.1, hm.2, rfl⟩
    · rw [if_neg hm] at h
      cases hrec : setStatusList rest ip port 0 with
      | none =>
        rw [hrec] at h
        exact absurd h (by simp)
      | some lc =>
        obtain ⟨l', c'⟩ := lc
        rw [hrec] at h
        injection h with h'
        injection h' with hl hc
        subst hl
        obtain ⟨hpres, a, ha, hprops⟩ := ih l' c' hrec
        constructor
        · intro b hb h0
          rcases List.mem_cons.mp hb with rfl | hb'
          · exact List.mem_cons_self _ _
          · exact List.mem_cons_of_mem _ (hpres b hb' h0)
        · exact ⟨a, List.mem_cons_of_mem _ ha, hprops⟩

/-- Lemma: `setStatusList` returns the input list when it reports no change. -/
theorem setStatusList_id (l : List NodeStatus) (ip : String) (port : Int) :
    ∀ l2, setStatusList l ip port 0 = some (l2, false) → l2 = l := by
  induction l with
  | nil =>
    intro l2 h
    simp [setStatusList] at h
  | cons ns rest ih =>
    intro l2 h
    unfold setStatusList at h
    by_cases hm : ns.node.ip = ip ∧ ns.node.port = port
    · rw [if_pos hm] at h
      by_cases hs : ns.status = 0
      · rw [if_pos hs] at h
        injection h with h'
        injection h' with hl hc
        exact hl.symm
      · rw [if_neg hs] at h
        injection h with h'
        injection h' with hl hc
        exact absurd hc (by simp)
    · rw [if_neg hm] at h
      cases hrec : setStatusList rest ip port 0 with
      | none =>
        rw [hrec] at h
        exact absurd h (by simp)
      | some lc =>
        obtain ⟨l', c'⟩ := lc
        rw [hrec] at h
        injection h with h'
        injection h' with hl hc
        subst hc
        rw [← hl, ih l' hrec]

/-- Frame: `SetNodeStatus` never touches the liveness map. -/
theorem setNodeStatus_alive_frame (srv : MetaServer) (nodes : Nodes) (ip : String) (port : Int)
    (status : Nat) (wND wMT : Bool) :
    (setNodeStatus srv nodes ip port status wND wMT).2.1.nodeAlive = srv.nodeAlive := by
  unfold setNodeStatus
  split
  · rfl
  · dsimp only
    split
    · split
      · split
        · split
          · exact (onNode_frame _ ip port wMT).2.2
          · exact (onNode_frame _ ip port wMT).2.2
        · rfl
      · rfl
    · rfl

/-- Frame: `AddNode` never touches the liveness map. -/
theorem addNode_alive_frame (srv : MetaServer) (ip : String) (port : Int) (wND wMT : Bool) :
    (addNode srv ip port wND wMT).2.1.nodeAlive = srv.nodeAlive := by
  unfold addNode addNodeNew
  cases srv.store.nd with
  | none =>
    dsimp only
    split
    · rfl
    · rfl
  | some nodes =>
    dsimp only
    split
    · exact setNodeStatus_alive_frame srv nodes ip port 0 wND wMT
    · split
      · rfl
      · rfl

/-- After `SetNodeStatus` to UP with a successful `ND` write oracle, the
persisted nodes table keeps every UP entry and holds an UP entry for the
endpoint. -/
theorem setNodeStatus_up_result (srv : MetaServer) (nodes : Nodes) (ip : String) (port : Int)
    (wMT : Bool) (hnd : srv.store.nd = some nodes) (hfound : findNode nodes ip port = true) :
    ∃ l2, (setNodeStatus srv nodes ip port 0 true wMT).2.1.store.nd = some ⟨l2⟩ ∧
      (∀ a ∈ nodes.nodes, a.status = 0 → a ∈ l2) ∧
      ∃ a ∈ l2, a.node.ip = ip ∧ a.node.port = port ∧ a.status = 0 := by
  obtain ⟨⟨l, c⟩, hl⟩ := setStatusList_isSome nodes.nodes ip port 0 hfound
  obtain ⟨hpres, hup⟩ := setStatusList_up nodes.nodes ip port l c hl
  unfold setNodeStatus
  rw [hl]
  dsimp only
  cases c with
  | false =>
    rw [if_neg (by simp)]
    refine ⟨l, ?_, hpres, hup⟩
    rw [hnd]
    have : l = nodes.nodes := setStatusList_id nodes.nodes ip port l hl
    rw [this]
  | true =>
    rw [if_pos rfl, if_pos rfl, if_pos rfl]
    have hfr := onNode_frame
      { srv with store := { srv.store with nd := some ⟨l⟩ } } ip port wMT
    split
    · exact ⟨l, hfr.1, hpres, hup⟩
    · exact ⟨l, hfr.1, hpres, hup⟩

/-- Lemma: `AddNode` with a successful `ND` write leaves the nodes table with every
previous UP entry plus an UP entry for the added endpoint. -/
theorem addNode_up_nd (srv : MetaServer) (ip : String) (port : Int) (wMT : Bool) :
    ∃ l2, (addNode srv ip port true wMT).2.1.store.nd = some ⟨l2⟩ ∧
      (∀ a ∈ ndList srv.store.nd, a.status = 0 → a ∈ l2) ∧
      ∃ a ∈ l2, a.node.ip = ip ∧ a.node.port = port ∧ a.status = 0 := by
  unfold addNode
  cases hnd : srv.store.nd with
  | none =>
    dsimp only
    unfold addNodeNew
    rw [if_pos rfl]
    refine ⟨[⟨⟨ip, port⟩, 0⟩], rfl, ?_, ?_⟩
    · intro a ha
      simp [ndList] at ha
    · exact ⟨⟨⟨ip, port⟩, 0⟩, by simp, rfl, rfl, rfl⟩
  | some nodes =>
    dsimp only
    by_cases hf : findNode nodes ip port = true
    · rw [if_pos hf]
      obtain ⟨l2, h1, h2, h3⟩ := setNodeStatus_up_result srv nodes ip port wMT hnd hf
      exact ⟨l2, h1, fun a ha h0 => h2 a (by simpa [ndList] using ha) h0, h3⟩
    · rw [if_neg hf]
      unfold addNodeNew
      rw [if_pos rfl]
      refine ⟨nodes.nodes ++ [⟨⟨ip, port⟩, 0⟩], rfl, ?_, ?_⟩
      · intro a ha h0
        exact List.mem_append_left _ (by simpa [ndList] using ha)
      · exact ⟨⟨⟨ip, port⟩, 0⟩, List.mem_append_right _ (by simp), rfl, rfl, rfl⟩

end Zeppelin

namespace Zeppelin

/-- C9 (amended): the liveness⊆UP invariant is preserved by `AddNodeAlive`
when its `ND` writes succeed, by `UpdateNodeAlive` and `CheckNodeAlive`
unconditionally, and is (re-)established by `RestoreNodeAlive` from the UP
set of the persisted nodes table. -/
theorem liveness_subset_up :
    (∀ (srv : MetaServer) (ip : String) (port : Int) (now : Int) (wMT : Bool),
      livenessInv srv → livenessInv (addNodeAlive srv ip port now true wMT).2.1) ∧
    (∀ (srv : MetaServer) (ip : String) (port : Int) (now : Int),
      livenessInv srv → livenessInv (updateNodeAlive srv ip port now).2) ∧
    (∀ (srv : MetaServer) (now timeout : Int),
      livenessInv srv → livenessInv (checkNodeAlive srv now timeout).1) ∧
    (∀ (srv : MetaServer) (nodes : Nodes) (now : Int),
      srv.store.nd = some nodes →
      livenessInv (restoreNodeAlive srv (getAllAliveNode nodes) now)) := by
  refine ⟨?_, ?_, ?_, ?_⟩
  · intro srv ip port now wMT hinv kv hkv
    have hal : (addNodeAlive srv ip port now true wMT).2.1.nodeAlive
        = aliveSet srv.nodeAlive (ip, port) now :=
      addNode_alive_frame { srv with nodeAlive := aliveSet srv.nodeAlive (ip, port) now }
        ip port true wMT
    obtain ⟨l2, hnd2, hpres, a, ha, hai, hap, has⟩ :=
      addNode_up_nd { srv with nodeAlive := aliveSet srv.nodeAlive (ip, port) now } ip port wMT
    rw [hal] at hkv
    have hndeq : (addNodeAlive srv ip port now true wMT).2.1.store.nd = some ⟨l2⟩ := hnd2
    rw [hndeq]
    rcases mem_aliveSet _ _ _ _ hkv with hk | hmem
    · refine ⟨a, ha, ?_, ?_, has⟩
      · rw [hk]
        exact hai
      · rw [hk]
        exact hap
    · obtain ⟨ns, hns, h1, h2, h3⟩ := hinv kv hmem
      exact ⟨ns, hpres ns hns h3, h1, h2, h3⟩
  · intro srv ip port now hinv kv hkv
    unfold updateNodeAlive at hkv
    by_cases hex : srv.nodeAlive.any (fun kv => kv.1 = (ip, port)) = true
    · rw [if_pos hex] at hkv
      dsimp only at hkv
      rcases mem_aliveSet _ _ _ _ hkv with hk | hmem
      · obtain ⟨kv0, hkv0, hkv0p⟩ := List.any_eq_true.mp hex
        have hkv0p' : kv0.1 = (ip, port) := by simpa using hkv0p
        obtain ⟨ns, hns, h1, h2, h3⟩ := hinv kv0 hkv0
        refine ⟨ns, ?_, ?_, ?_, h3⟩
        · unfold updateNodeAlive
          rw [if_pos hex]
          exact hns
        · rw [hk, ← hkv0p']
          exact h1
        · rw [hk, ← hkv0p']
          exact h2
      · obtain ⟨ns, hns, h1, h2, h3⟩ := hinv kv hmem
        refine ⟨ns, ?_, h1, h2, h3⟩
        unfold updateNodeAlive
        rw [if_pos hex]
        exact hns
    · rw [if_neg hex] at hkv
      obtain ⟨ns, hns, h1, h2, h3⟩ := hinv kv hkv
      refine ⟨ns, ?_, h1, h2, h3⟩
      unfold updateNodeAlive
      rw [if_neg hex]
      exact hns
  · intro srv now timeout hinv kv hkv
    unfold checkNodeAlive at hkv
    dsimp only at hkv
    exact hinv kv (List.mem_of_mem_filter hkv)
  · intro srv nodes now hnd kv hkv
    unfold restoreNodeAlive at hkv
    dsimp only at hkv
    rcases List.mem_map.mp hkv with ⟨ns, hns, rfl⟩
    have hns' : ns ∈ nodes.nodes.filter (fun x => x.status == 0) := hns
    have hmemn : ns ∈ nodes.nodes := (List.mem_filter.mp hns').1
    have hst : (ns.status == 0) = true := (List.mem_filter.mp hns').2
    refine ⟨ns, ?_, rfl, rfl, by simpa using hst⟩
    unfold restoreNodeAlive ndList
    rw [hnd]
    exact hmemn

/-- C9: counterexample to the unconditional claim.  When the `ND` consensus
write inside `AddNodeAlive` fails, the endpoint stays in the liveness map
while the nodes table records nothing, violating the invariant. -/
theorem liveness_inv_violated_on_write_failure :
    ¬ livenessInv (addNodeAlive srvEmpty "1.1.1.1" 7 0 false false).2.1 := by
  decide

/-- Instantiation of `liveness_subset_up` at concrete states: a JOIN into the
empty server, a PING refresh, a sweep, and a promotion restore over
`srvOne`. -/
theorem liveness_subset_up_witness :
    livenessInv (addNodeAlive srvEmpty "10.0.0.5" 77 0 true true).2.1 ∧
    livenessInv (updateNodeAlive srvEmpty "10.0.0.5" 77 0).2 ∧
    livenessInv (checkNodeAlive srvEmpty 100 60).1 ∧
    livenessInv (restoreNodeAlive srvOne (getAllAliveNode ⟨[mkUp "10.0.0.1"]⟩) 0) :=
  ⟨liveness_subset_up.1 srvEmpty "10.0.0.5" 77 0 true (by decide),
   liveness_subset_up.2.1 srvEmpty "10.0.0.5" 77 0 (by decide),
   liveness_subset_up.2.2.1 srvEmpty 100 60 (by decide),
   liveness_subset_up.2.2.2 srvOne ⟨[mkUp "10.0.0.1"]⟩ 0 rfl⟩

end Zeppelin
